import Mathlib

/-!
Verification of the 3d-grass-marble grass-field demo.

The development shallowly embeds the mathematical core of the repository:
the GLSL hash / noise / smoothstep primitives and the per-instance
generation pipeline of the vertex shaders (src/WebGLGrass.tsx,
src/App.tsx and the unnamed shader variants), the interaction-trail
lag-point update performed in the useFrame callbacks, and the kinetic
sphere controller of src/App.tsx.  GPU floats are modelled as exact
rationals where the source only uses field operations and floor/fract,
and as real numbers where the source takes square roots or
trigonometric functions.
-/

namespace Grass

/-! ## Generic GLSL primitives

These are polymorphic over a linear ordered field with a floor so that
the same definitions serve the exact rational model (for concrete
evaluation) and the real model (for the geometric parts). -/

/-- GLSL fract: x - floor(x). -/
def fract {K : Type*} [LinearOrderedField K] [FloorRing K] (x : K) : K :=
  x - ⌊x⌋

/-- GLSL clamp(x, lo, hi) = min(max(x, lo), hi). -/
def clampG {K : Type*} [LinearOrderedField K] (x lo hi : K) : K :=
  min (max x lo) hi

/-- GLSL mix(a, b, t) = a*(1-t) + b*t. -/
def mixG {K : Type*} [LinearOrderedField K] (a b t : K) : K :=
  a * (1 - t) + b * t

/-- The cubic Hermite polynomial t*t*(3-2*t) used by GLSL smoothstep
and by the fade curve of the value noise. -/
def hermite {K : Type*} [LinearOrderedField K] (t : K) : K :=
  t * t * (3 - 2 * t)

/-- GLSL smoothstep(e0, e1, x): Hermite interpolation after clamping
the normalized parameter to [0,1]. -/
def smoothstepG {K : Type*} [LinearOrderedField K] (e0 e1 x : K) : K :=
  hermite (clampG ((x - e0) / (e1 - e0)) 0 1)

/-- hash11 from the vertex shaders:
p = fract(p * 0.1031); p *= p + 33.33; p *= p + p; return fract(p). -/
def hash11 {K : Type*} [LinearOrderedField K] [FloorRing K] (p : K) : K :=
  fract ((fract (p * (1031 / 10000)) * (fract (p * (1031 / 10000)) + 3333 / 100)) *
    ((fract (p * (1031 / 10000)) * (fract (p * (1031 / 10000)) + 3333 / 100)) +
     (fract (p * (1031 / 10000)) * (fract (p * (1031 / 10000)) + 3333 / 100))))

/-- The dot-reseeded intermediate vector shared by hash12 and hash22:
from components (ax, ay, az) = fract(seeded p), form
p3 += dot(p3, p3.yzx + 33.33) componentwise. -/
def reseed3 {K : Type*} [LinearOrderedField K] (ax ay az : K) : K × K × K :=
  let d := ax * (ay + 3333 / 100) + ay * (az + 3333 / 100) + az * (ax + 3333 / 100)
  (ax + d, ay + d, az + d)

/-- hash12 from the vertex shaders:
p3 = fract(vec3(p.xyx) * 0.1031); p3 += dot(p3, p3.yzx + 33.33);
return fract((p3.x + p3.y) * p3.z). -/
def hash12 {K : Type*} [LinearOrderedField K] [FloorRing K] (p : K × K) : K :=
  let q := reseed3 (fract (p.1 * (1031 / 10000))) (fract (p.2 * (1031 / 10000)))
    (fract (p.1 * (1031 / 10000)))
  fract ((q.1 + q.2.1) * q.2.2)

/-- hash22 from the vertex shaders:
p3 = fract(vec3(p.xyx) * vec3(0.1031, 0.1030, 0.0973));
p3 += dot(p3, p3.yzx + 33.33);
return fract((p3.xx + p3.yz) * p3.zy). -/
def hash22 {K : Type*} [LinearOrderedField K] [FloorRing K] (p : K × K) : K × K :=
  let q := reseed3 (fract (p.1 * (1031 / 10000))) (fract (p.2 * (1030 / 10000)))
    (fract (p.1 * (973 / 10000)))
  (fract ((q.1 + q.2.1) * q.2.2), fract ((q.1 + q.2.2) * q.2.1))

/-- Value noise from the vertex shaders: bilinear interpolation of
hash12 at the four lattice corners with the Hermite fade f*f*(3-2*f). -/
def noise {K : Type*} [LinearOrderedField K] [FloorRing K] (p : K × K) : K :=
  mixG (hash12 ((⌊p.1⌋ : K), (⌊p.2⌋ : K))) (hash12 ((⌊p.1⌋ : K) + 1, (⌊p.2⌋ : K))) (hermite (fract p.1))
    + (hash12 ((⌊p.1⌋ : K), (⌊p.2⌋ : K) + 1) - hash12 ((⌊p.1⌋ : K), (⌊p.2⌋ : K)))
      * hermite (fract p.2) * (1 - hermite (fract p.1))
    + (hash12 ((⌊p.1⌋ : K) + 1, (⌊p.2⌋ : K) + 1) - hash12 ((⌊p.1⌋ : K) + 1, (⌊p.2⌋ : K)))
      * hermite (fract p.1) * hermite (fract p.2)

/-! ### Basic bounds on the primitives -/

theorem fract_nonneg {K : Type*} [LinearOrderedField K] [FloorRing K] (x : K) :
    0 ≤ fract x := by
  have h2 := Int.floor_le x
  simp only [fract]
  linarith

theorem fract_lt_one {K : Type*} [LinearOrderedField K] [FloorRing K] (x : K) :
    fract x < 1 := by
  have h := Int.lt_floor_add_one x
  simp only [fract]
  linarith

theorem hash11_mem {K : Type*} [LinearOrderedField K] [FloorRing K] (p : K) :
    0 ≤ hash11 p ∧ hash11 p < 1 := by
  simp only [hash11]
  exact ⟨fract_nonneg _, fract_lt_one _⟩

theorem hash12_mem {K : Type*} [LinearOrderedField K] [FloorRing K] (p : K × K) :
    0 ≤ hash12 p ∧ hash12 p < 1 := by
  simp only [hash12]
  exact ⟨fract_nonneg _, fract_lt_one _⟩

theorem hash22_fst_mem {K : Type*} [LinearOrderedField K] [FloorRing K] (p : K × K) :
    0 ≤ (hash22 p).1 ∧ (hash22 p).1 < 1 := by
  simp only [hash22]
  exact ⟨fract_nonneg _, fract_lt_one _⟩

theorem hash22_snd_mem {K : Type*} [LinearOrderedField K] [FloorRing K] (p : K × K) :
    0 ≤ (hash22 p).2 ∧ (hash22 p).2 < 1 := by
  simp only [hash22]
  exact ⟨fract_nonneg _, fract_lt_one _⟩

/-- The Hermite fade maps [0,1] into [0,1]. -/
theorem hermite_mem {K : Type*} [LinearOrderedField K] {t : K}
    (h0 : 0 ≤ t) (h1 : t ≤ 1) : 0 ≤ hermite t ∧ hermite t ≤ 1 := by
  simp only [hermite]
  constructor
  · have : (0:K) ≤ 3 - 2 * t := by linarith
    positivity
  · nlinarith [sq_nonneg (1 - t), sq_nonneg t]

/-- The Hermite fade is monotone on [0,1]. -/
theorem hermite_mono {K : Type*} [LinearOrderedField K] {s t : K}
    (h0 : 0 ≤ s) (hst : s ≤ t) (h1 : t ≤ 1) : hermite s ≤ hermite t := by
  simp only [hermite]
  nlinarith [mul_nonneg (mul_nonneg (sub_nonneg.2 hst) h0) (sub_nonneg.2 h1),
    mul_nonneg (sub_nonneg.2 hst) h0, mul_nonneg (sub_nonneg.2 hst) (sub_nonneg.2 h1),
    mul_nonneg h0 (sub_nonneg.2 h1)]

theorem clampG_mem {K : Type*} [LinearOrderedField K] {lo hi : K} (x : K)
    (h : lo ≤ hi) : lo ≤ clampG x lo hi ∧ clampG x lo hi ≤ hi :=
  ⟨le_min (le_max_right x lo) h, min_le_right _ _⟩

theorem clampG_mono {K : Type*} [LinearOrderedField K] {x y : K} (lo hi : K)
    (h : x ≤ y) : clampG x lo hi ≤ clampG y lo hi :=
  min_le_min (max_le_max h le_rfl) le_rfl

theorem smoothstepG01_mem {K : Type*} [LinearOrderedField K] (x : K) :
    0 ≤ smoothstepG 0 1 x ∧ smoothstepG 0 1 x ≤ 1 := by
  have h := clampG_mem (K := K) ((x - 0) / (1 - 0)) (zero_le_one)
  exact hermite_mem h.1 h.2

/-- smoothstep(0,1,x) vanishes for non-positive arguments: this is the
clamp that kills negative pre-strengths in the branch-free shader. -/
theorem smoothstepG01_of_nonpos {K : Type*} [LinearOrderedField K] {x : K}
    (h : x ≤ 0) : smoothstepG 0 1 x = 0 := by
  have hc : clampG ((x - 0) / (1 - 0)) 0 1 = 0 := by
    simp only [clampG]
    rw [max_eq_right, min_eq_left] <;> simp [h]
  rw [smoothstepG, hc, hermite]
  ring

theorem smoothstepG01_zero {K : Type*} [LinearOrderedField K] :
    smoothstepG (0 : K) 1 0 = 0 :=
  smoothstepG01_of_nonpos le_rfl

theorem smoothstepG01_one {K : Type*} [LinearOrderedField K] :
    smoothstepG (0 : K) 1 1 = 1 := by
  have hc : clampG ((1 - 0) / (1 - 0) : K) 0 1 = 1 := by
    simp [clampG]
  rw [smoothstepG, hc, hermite]
  ring

/-- smoothstep(0,1,·) is monotone in its argument. -/
theorem smoothstepG01_mono {K : Type*} [LinearOrderedField K] {x y : K}
    (h : x ≤ y) : smoothstepG 0 1 x ≤ smoothstepG 0 1 y := by
  have hx := clampG_mem (K := K) ((x - 0) / (1 - 0)) (zero_le_one)
  have hy := clampG_mem (K := K) ((y - 0) / (1 - 0)) (zero_le_one)
  have hxy : clampG ((x - 0) / (1 - 0)) 0 1 ≤ clampG ((y - 0) / (1 - 0)) 0 1 :=
    clampG_mono _ _ (by simpa using h)
  exact hermite_mono hx.1 hxy hy.2

/-- Bilinear interpolation with weights in [0,1] of corner values in
[0,1] stays in [0,1]; stated in the algebraic form the shader uses. -/
theorem bilinear_mem {K : Type*} [LinearOrderedField K] {a b c d ux uy : K}
    (ha : 0 ≤ a ∧ a ≤ 1) (hb : 0 ≤ b ∧ b ≤ 1) (hc : 0 ≤ c ∧ c ≤ 1)
    (hd : 0 ≤ d ∧ d ≤ 1) (hux : 0 ≤ ux ∧ ux ≤ 1) (huy : 0 ≤ uy ∧ uy ≤ 1) :
    0 ≤ mixG a b ux + (c - a) * uy * (1 - ux) + (d - b) * ux * uy ∧
      mixG a b ux + (c - a) * uy * (1 - ux) + (d - b) * ux * uy ≤ 1 := by
  simp only [mixG]
  constructor
  · nlinarith [mul_nonneg (mul_nonneg ha.1 (sub_nonneg.2 hux.2)) (sub_nonneg.2 huy.2),
      mul_nonneg (mul_nonneg hb.1 hux.1) (sub_nonneg.2 huy.2),
      mul_nonneg (mul_nonneg hc.1 (sub_nonneg.2 hux.2)) huy.1,
      mul_nonneg (mul_nonneg hd.1 hux.1) huy.1]
  · nlinarith [mul_nonneg (mul_nonneg (sub_nonneg.2 ha.2) (sub_nonneg.2 hux.2)) (sub_nonneg.2 huy.2),
      mul_nonneg (mul_nonneg (sub_nonneg.2 hb.2) hux.1) (sub_nonneg.2 huy.2),
      mul_nonneg (mul_nonneg (sub_nonneg.2 hc.2) (sub_nonneg.2 hux.2)) huy.1,
      mul_nonneg (mul_nonneg (sub_nonneg.2 hd.2) hux.1) huy.1]

/-- Value noise stays in [0,1]: it is a convex combination of four
hash values that each lie in [0,1). -/
theorem noise_mem {K : Type*} [LinearOrderedField K] [FloorRing K] (p : K × K) :
    0 ≤ noise p ∧ noise p ≤ 1 := by
  have hux := hermite_mem (fract_nonneg p.1) (fract_lt_one p.1).le
  have huy := hermite_mem (fract_nonneg p.2) (fract_lt_one p.2).le
  have ha := hash12_mem ((⌊p.1⌋ : K), (⌊p.2⌋ : K))
  have hb := hash12_mem ((⌊p.1⌋ : K) + 1, (⌊p.2⌋ : K))
  have hc := hash12_mem ((⌊p.1⌋ : K), (⌊p.2⌋ : K) + 1)
  have hd := hash12_mem ((⌊p.1⌋ : K) + 1, (⌊p.2⌋ : K) + 1)
  simp only [noise]
  exact bilinear_mem ⟨ha.1, ha.2.le⟩ ⟨hb.1, hb.2.le⟩ ⟨hc.1, hc.2.le⟩ ⟨hd.1, hd.2.le⟩
    ⟨hux.1, hux.2⟩ ⟨huy.1, huy.2⟩

/-! ## Deterministic instance generator

The main() of the vertex shaders derives every per-instance attribute
from the instance index idx by hash calls with distinct seed constants
(src/WebGLGrass.tsx lines 77-100, identically in src/App.tsx). -/

/-- randPos = hash22(vec2(idx * 0.0013, idx * 0.0017)). -/
def randPos {K : Type*} [LinearOrderedField K] [FloorRing K] (idx : K) : K × K :=
  hash22 (idx * (13 / 10000), idx * (17 / 10000))

/-- Field placement: x = (randPos.x - 0.5) * fieldSize,
z = (randPos.y - 0.5) * fieldSize. -/
def fieldPos {K : Type*} [LinearOrderedField K] [FloorRing K] (idx fieldSize : K) : K × K :=
  (((randPos idx).1 - 1 / 2) * fieldSize, ((randPos idx).2 - 1 / 2) * fieldSize)

/-- sizeVars = hash22(vec2(idx * 0.0019, idx * 0.0023)). -/
def sizeVars {K : Type*} [LinearOrderedField K] [FloorRing K] (idx : K) : K × K :=
  hash22 (idx * (19 / 10000), idx * (23 / 10000))

/-- heightVar = grassHeight + sizeVars.x * 0.8 (the uniform grassHeight
is the literal 1.25 in src/App.tsx). -/
def heightVar {K : Type*} [LinearOrderedField K] [FloorRing K] (grassHeight idx : K) : K :=
  grassHeight + (sizeVars idx).1 * (8 / 10)

/-- widthVar = 0.7 + sizeVars.y * 0.6. -/
def widthVar {K : Type*} [LinearOrderedField K] [FloorRing K] (idx : K) : K :=
  7 / 10 + (sizeVars idx).2 * (6 / 10)

/-- stiffness = 0.5 + hash11(idx * 0.0071) * 0.8. -/
def stiffness {K : Type*} [LinearOrderedField K] [FloorRing K] (idx : K) : K :=
  1 / 2 + hash11 (idx * (71 / 10000)) * (8 / 10)

/-- bendVars = hash22(vec2(idx * 0.0041, idx * 0.0047)). -/
def bendVars {K : Type*} [LinearOrderedField K] [FloorRing K] (idx : K) : K × K :=
  hash22 (idx * (41 / 10000), idx * (47 / 10000))

/-- bendAngle = bendVars.x * 6.28318. -/
def bendAngle {K : Type*} [LinearOrderedField K] [FloorRing K] (idx : K) : K :=
  (bendVars idx).1 * (628318 / 100000)

/-- bendMagnitude = bendVars.y * 0.25. -/
def bendMagnitude {K : Type*} [LinearOrderedField K] [FloorRing K] (idx : K) : K :=
  (bendVars idx).2 * (1 / 4)

/-- randomRotation = hash11(idx * 0.0037) * 6.28318. -/
def randomRotation {K : Type*} [LinearOrderedField K] [FloorRing K] (idx : K) : K :=
  hash11 (idx * (37 / 10000)) * (628318 / 100000)

/-- The bundle of derived per-instance attributes named by C2:
placement, height and width scales, stiffness, rest-bend direction and
magnitude, and base rotation. -/
structure InstanceAttrs (K : Type*) where
  posX : K
  posZ : K
  height : K
  width : K
  stiff : K
  restAngle : K
  restMagnitude : K
  rotation : K

/-- The instance generator: a pure function of the index and the global
parameters (fieldSize, grassHeight), with no other state. -/
def instanceGen {K : Type*} [LinearOrderedField K] [FloorRing K]
    (idx fieldSize grassHeight : K) : InstanceAttrs K :=
  { posX := (fieldPos idx fieldSize).1
    posZ := (fieldPos idx fieldSize).2
    height := heightVar grassHeight idx
    width := widthVar idx
    stiff := stiffness idx
    restAngle := bendAngle idx
    restMagnitude := bendMagnitude idx
    rotation := randomRotation idx }

/-! ## Interaction trail: the lag point update

WebGLGrass.tsx line 372: oldestTrailPosition.current.lerp(spherePosition,
delta * 0.6); App.tsx line 365 does the same with rate 0.75.
THREE.Vector3.lerp(v, alpha) adds (v - this) * alpha componentwise. -/

/-- THREE.Vector3.lerp on exact-rational 3-vectors. -/
def lerp3 (v w : ℚ × ℚ × ℚ) (alpha : ℚ) : ℚ × ℚ × ℚ :=
  (v.1 + (w.1 - v.1) * alpha, v.2.1 + (w.2.1 - v.2.1) * alpha,
    v.2.2 + (w.2.2 - v.2.2) * alpha)

/-- Squared Euclidean norm of a 3-vector (THREE length() squared). -/
def normSq3 (v : ℚ × ℚ × ℚ) : ℚ :=
  v.1 ^ 2 + v.2.1 ^ 2 + v.2.2 ^ 2

/-- Lead point of the scenario of C1: straight-line motion at constant
speed, advancing by c = speed * dt every frame. -/
def leadSeq (c : ℚ) (n : ℕ) : ℚ :=
  n * c

/-- Lag point of the scenario of C1: starts at the lead point (both are
initialized to (0,1,0) in the sources) and is lerped toward the current
lead point with factor alpha = rate * dt each frame. -/
def lagSeq (alpha c : ℚ) : ℕ → ℚ
  | 0 => 0
  | n + 1 => lagSeq alpha c n + (leadSeq c (n + 1) - lagSeq alpha c n) * alpha

/-- Closed form of the lead-lag gap in the straight-line scenario. -/
theorem lagSeq_gap {alpha c : ℚ} (h : alpha ≠ 0) (n : ℕ) :
    leadSeq c n - lagSeq alpha c n
      = ((1 - alpha) * c / alpha) * (1 - (1 - alpha) ^ n) := by
  induction n with
  | zero => simp [leadSeq, lagSeq]
  | succ n ih =>
    have step : leadSeq c (n + 1) - lagSeq alpha c (n + 1)
        = (1 - alpha) * ((leadSeq c n - lagSeq alpha c n) + c) := by
      have : leadSeq c (n + 1) = leadSeq c n + c := by
        simp [leadSeq]
        ring
      rw [lagSeq, this]
      ring
    rw [step, ih]
    field_simp
    ring

theorem lagSeq_gap_nonneg {alpha c : ℚ} (h0 : 0 < alpha) (h1 : alpha ≤ 1)
    (hc : 0 ≤ c) (n : ℕ) : 0 ≤ leadSeq c n - lagSeq alpha c n := by
  rw [lagSeq_gap h0.ne' n]
  have hr0 : (0:ℚ) ≤ 1 - alpha := by linarith
  have hrn : (1 - alpha) ^ n ≤ 1 := pow_le_one₀ hr0 (by linarith)
  have : (0:ℚ) ≤ (1 - alpha) * c / alpha := by positivity
  have h2 : (0:ℚ) ≤ 1 - (1 - alpha) ^ n := by linarith
  positivity

theorem lagSeq_gap_le {alpha c : ℚ} (h0 : 0 < alpha) (h1 : alpha ≤ 1)
    (hc : 0 ≤ c) (n : ℕ) :
    leadSeq c n - lagSeq alpha c n ≤ (1 - alpha) * c / alpha := by
  rw [lagSeq_gap h0.ne' n]
  have hr0 : (0:ℚ) ≤ 1 - alpha := by linarith
  have hE : (0:ℚ) ≤ (1 - alpha) * c / alpha := by positivity
  have hrn : 0 ≤ (1 - alpha) ^ n := by positivity
  nlinarith

/-- Per-frame lag displacement in the straight-line scenario:
alpha * (gap + c), where gap is the current lead-lag distance. -/
theorem lagSeq_step (alpha c : ℚ) (n : ℕ) :
    lagSeq alpha c (n + 1) - lagSeq alpha c n
      = ((leadSeq c n - lagSeq alpha c n) + c) * alpha := by
  have : leadSeq c (n + 1) = leadSeq c n + c := by
    simp [leadSeq]
    ring
  rw [lagSeq, this]
  ring

/-- C1 (amended): the lag point moves exactly rate*dt times the current
lead-lag offset each update (stated via squared norms, so the distance
moved is rate*dt times the current distance); and in the straight-line
constant-speed scenario, PROVIDED the per-frame lerp factor rate*dt is
at most 1, the per-frame lag displacement never exceeds the lead
displacement speed*dt, and the lead-lag distance converges to
(1 - rate*dt)*speed*dt/(rate*dt).  The unamended claim asserts this for
every dt > 0; it fails whenever rate*dt > 1 (see the counterexample). -/
theorem c1_trail_lag_bound (rate dt speed : ℚ) (hpos : 0 < rate * dt)
    (hle : rate * dt ≤ 1) (hc : 0 ≤ speed * dt) :
    (∀ lag lead : ℚ × ℚ × ℚ,
      normSq3 (lerp3 lag lead (rate * dt) - lag)
        = (rate * dt) ^ 2 * normSq3 (lead - lag))
    ∧ (∀ n : ℕ,
      |lagSeq (rate * dt) (speed * dt) (n + 1) - lagSeq (rate * dt) (speed * dt) n|
        ≤ |leadSeq (speed * dt) (n + 1) - leadSeq (speed * dt) n|)
    ∧ Filter.Tendsto
        (fun n : ℕ =>
          ((leadSeq (speed * dt) n - lagSeq (rate * dt) (speed * dt) n : ℚ) : ℝ))
        Filter.atTop
        (nhds (((1 - rate * dt) * (speed * dt) / (rate * dt) : ℚ) : ℝ)) := by
  set alpha := rate * dt with halpha
  set c := speed * dt with hcdef
  refine ⟨?_, ?_, ?_⟩
  · intro lag lead
    simp only [lerp3, normSq3, Prod.mk_sub_mk, Prod.fst_sub, Prod.snd_sub]
    ring
  · intro n
    have hgap0 := lagSeq_gap_nonneg hpos hle hc n
    have hgapE := lagSeq_gap_le hpos hle hc n
    have hstep := lagSeq_step alpha c n
    have hlead : leadSeq c (n + 1) - leadSeq c n = c := by
      simp [leadSeq]
      ring
    rw [hstep, hlead]
    have hdisp0 : 0 ≤ ((leadSeq c n - lagSeq alpha c n) + c) * alpha := by
      have := hgap0
      nlinarith
    rw [abs_of_nonneg hdisp0, abs_of_nonneg hc]
    have hEmul : ((1 - alpha) * c / alpha) * alpha = (1 - alpha) * c := by
      field_simp
    nlinarith
  · have hr0 : (0:ℝ) ≤ ((1 - alpha : ℚ) : ℝ) := by
      have : (0:ℚ) ≤ 1 - alpha := by linarith
      exact_mod_cast this
    have hr1 : ((1 - alpha : ℚ) : ℝ) < 1 := by
      have : (1 - alpha : ℚ) < 1 := by linarith
      exact_mod_cast this
    have hpow := tendsto_pow_atTop_nhds_zero_of_lt_one hr0 hr1
    have hmul := hpow.const_mul (((1 - alpha) * c / alpha : ℚ) : ℝ)
    have hsub := (tendsto_const_nhds
      (x := (((1 - alpha) * c / alpha : ℚ) : ℝ)) (f := Filter.atTop (α := ℕ))).sub hmul
    simp only [mul_zero, sub_zero] at hsub
    refine hsub.congr ?_
    intro n
    have hgap := @lagSeq_gap alpha c hpos.ne' n
    have : ((leadSeq c n - lagSeq alpha c n : ℚ) : ℝ)
        = (((1 - alpha) * c / alpha : ℚ) : ℝ) * (1 - ((1 - alpha : ℚ) : ℝ) ^ n) := by
      rw [hgap]
      push_cast
      ring
    rw [this]
    ring

/-- Witness for C1: rate 0.6 (WebGLGrass.tsx), dt = 1/60, unit speed. -/
theorem c1_trail_lag_bound_witness :
    (0 : ℚ) < 6 / 10 * (1 / 60) ∧ (6 / 10 * (1 / 60) : ℚ) ≤ 1 ∧ (0 : ℚ) ≤ 1 * (1 / 60) ∧
    ((∀ lag lead : ℚ × ℚ × ℚ,
      normSq3 (lerp3 lag lead (6 / 10 * (1 / 60)) - lag)
        = (6 / 10 * (1 / 60)) ^ 2 * normSq3 (lead - lag))
    ∧ (∀ n : ℕ,
      |lagSeq (6 / 10 * (1 / 60)) (1 * (1 / 60)) (n + 1)
          - lagSeq (6 / 10 * (1 / 60)) (1 * (1 / 60)) n|
        ≤ |leadSeq (1 * (1 / 60)) (n + 1) - leadSeq (1 * (1 / 60)) n|)
    ∧ Filter.Tendsto
        (fun n : ℕ =>
          ((leadSeq (1 * (1 / 60)) n - lagSeq (6 / 10 * (1 / 60)) (1 * (1 / 60)) n : ℚ) : ℝ))
        Filter.atTop
        (nhds (((1 - 6 / 10 * (1 / 60)) * (1 * (1 / 60)) / (6 / 10 * (1 / 60)) : ℚ) : ℝ))) :=
  ⟨by norm_num, by norm_num, by norm_num,
    c1_trail_lag_bound (6 / 10) (1 / 60) 1 (by norm_num) (by norm_num) (by norm_num)⟩

/-- C1 counterexample: with the WebGLGrass.tsx rate 0.6 and a frame
delta dt = 2 > 0 (so rate*dt = 1.2), a lead point moving at constant
speed 1 starting level with the lag point makes the lag point travel
2.4 world units in the first frame while the lead point travels only 2:
the claimed per-frame bound fails, so the claim is false for general
dt > 0. -/
theorem c1_trail_lag_counterexample :
    (0 : ℚ) < 2 ∧
    ¬ (|lagSeq (6 / 10 * 2) (1 * 2) (0 + 1) - lagSeq (6 / 10 * 2) (1 * 2) 0|
        ≤ |leadSeq (1 * 2) (0 + 1) - leadSeq (1 * 2) 0|) := by
  constructor
  · norm_num
  · intro h
    simp only [lagSeq, leadSeq] at h
    norm_num at h
    rw [abs_of_nonneg (by norm_num : (0:ℚ) ≤ 12 / 5)] at h
    norm_num at h

/-- C2: the instance generator is deterministic — every derived
attribute (placement, height/width scale, stiffness, rest bend,
rotation) is a pure function of the index and the global parameters
(fieldSize, grassHeight); the embedding is stateless by construction,
exactly as the shader chain of hash11/hash22 calls, so equal inputs
give identical outputs on any two evaluations. -/
theorem c2_instanceGen_deterministic (i j s t g h : ℚ)
    (hij : i = j) (hst : s = t) (hgh : g = h) :
    instanceGen i s g = instanceGen j t h := by
  rw [hij, hst, hgh]

/-- Witness for C2 at index 0, fieldSize 50, grassHeight 1.3. -/
theorem c2_instanceGen_deterministic_witness :
    (0 : ℚ) = 0 ∧ instanceGen (0 : ℚ) 50 (13 / 10) = instanceGen 0 50 (13 / 10) :=
  ⟨rfl, c2_instanceGen_deterministic 0 0 50 50 (13 / 10) (13 / 10) rfl rfl rfl⟩

/-- C3: for every index and every positive fieldSize the generated
placement lies in the closed square [-fieldSize/2, fieldSize/2]^2,
because the hash22 outputs are fract values in [0,1). -/
theorem c3_fieldPos_in_square (idx fieldSize : ℚ) (h : 0 < fieldSize) :
    -(fieldSize / 2) ≤ (fieldPos idx fieldSize).1
    ∧ (fieldPos idx fieldSize).1 ≤ fieldSize / 2
    ∧ -(fieldSize / 2) ≤ (fieldPos idx fieldSize).2
    ∧ (fieldPos idx fieldSize).2 ≤ fieldSize / 2 := by
  have h1 := hash22_fst_mem (K := ℚ) (idx * (13 / 10000), idx * (17 / 10000))
  have h2 := hash22_snd_mem (K := ℚ) (idx * (13 / 10000), idx * (17 / 10000))
  simp only [fieldPos, randPos]
  refine ⟨?_, ?_, ?_, ?_⟩ <;> nlinarith [h1.1, h1.2, h2.1, h2.2]

/-- Witness for C3 at index 0, fieldSize 50. -/
theorem c3_fieldPos_in_square_witness :
    (0 : ℚ) < 50 ∧
    (-(50 / 2 : ℚ) ≤ (fieldPos (0 : ℚ) 50).1
    ∧ (fieldPos (0 : ℚ) 50).1 ≤ 50 / 2
    ∧ -(50 / 2 : ℚ) ≤ (fieldPos (0 : ℚ) 50).2
    ∧ (fieldPos (0 : ℚ) 50).2 ≤ 50 / 2) :=
  ⟨by norm_num, c3_fieldPos_in_square 0 50 (by norm_num)⟩

/-! ## Real-valued vector helpers

GLSL length(v) = sqrt(dot(v, v)); THREE.Vector3.length() likewise.
These need real square roots, so this part of the model lives in ℝ. -/

noncomputable section RealModel

/-- GLSL dot on vec2. -/
def dot2 (a b : ℝ × ℝ) : ℝ :=
  a.1 * b.1 + a.2 * b.2

/-- GLSL length on vec2. -/
def len2 (a : ℝ × ℝ) : ℝ :=
  Real.sqrt (dot2 a a)

/-- Componentwise division of a vec2 by a scalar (GLSL v / s). -/
def vecDiv (v : ℝ × ℝ) (s : ℝ) : ℝ × ℝ :=
  (v.1 / s, v.2 / s)

/-- THREE.Vector3.length(). -/
def len3 (v : ℝ × ℝ × ℝ) : ℝ :=
  Real.sqrt (v.1 * v.1 + v.2.1 * v.2.1 + v.2.2 * v.2.2)

open Classical in
/-- THREE.Vector3.normalize(): divideScalar(length() || 1), so the zero
vector is returned unchanged and no division by zero ever occurs. -/
def threeNormalize (v : ℝ × ℝ × ℝ) : ℝ × ℝ × ℝ :=
  if len3 v = 0 then v else (v.1 / len3 v, v.2.1 / len3 v, v.2.2 / len3 v)

open Classical in
/-- GLSL step(edge, x) = 0 if x < edge, else 1. -/
def stepG (edge x : ℝ) : ℝ :=
  if x < edge then 0 else 1

/-! ## Trail interaction model

Line-based bending from the vertex shader of src/WebGLGrass.tsx
(lines 144-188); src/App.tsx lines 130-172 is the branch variant of
the same computation, and src/unnamed/part_000 the branch-free variant
with influence radius 1.45 and strength scale 1.3. -/

def lineVector (ls le : ℝ × ℝ) : ℝ × ℝ :=
  le - ls

def lineLength (ls le : ℝ × ℝ) : ℝ :=
  len2 (lineVector ls le)

/-- safeLineLength = max(lineLength, 0.001): epsilon-clamped denominator. -/
def safeLineLength (ls le : ℝ × ℝ) : ℝ :=
  max (lineLength ls le) 0.001

def lineDirection (ls le : ℝ × ℝ) : ℝ × ℝ :=
  vecDiv (lineVector ls le) (safeLineLength ls le)

def toGrass (ls g : ℝ × ℝ) : ℝ × ℝ :=
  g - ls

/-- projectionLength = clamp(dot(toGrass, lineDirection), 0.0, safeLineLength). -/
def projectionLength (ls le g : ℝ × ℝ) : ℝ :=
  clampG (dot2 (toGrass ls g) (lineDirection ls le)) 0 (safeLineLength ls le)

def closestPointOnLine (ls le g : ℝ × ℝ) : ℝ × ℝ :=
  ls + projectionLength ls le g • lineDirection ls le

def distanceToLine (ls le g : ℝ × ℝ) : ℝ :=
  len2 (g - closestPointOnLine ls le g)

def influenceRadius : ℝ := 1.75

def lineValid (ls le : ℝ × ℝ) : ℝ :=
  stepG (1 / 10) (lineLength ls le)

def inRange (ls le g : ℝ × ℝ) : ℝ :=
  1 - stepG influenceRadius (distanceToLine ls le g)

def isActive (ls le g : ℝ × ℝ) : ℝ :=
  lineValid ls le * inRange ls le g

/-- bendStrength before the along-line falloff:
smoothstep(0, 1, (1 - distanceToLine/influenceRadius) * isActive). -/
def bendStrengthDist (ls le g : ℝ × ℝ) : ℝ :=
  smoothstepG 0 1 ((1 - distanceToLine ls le g / influenceRadius) * isActive ls le g)

def positionAlongLine (ls le g : ℝ × ℝ) : ℝ :=
  projectionLength ls le g / safeLineLength ls le

def lineFalloff (ls le g : ℝ × ℝ) : ℝ :=
  smoothstepG 0 1 (positionAlongLine ls le g)

def bendStrength (ls le g : ℝ × ℝ) : ℝ :=
  bendStrengthDist ls le g * lineFalloff ls le g

def toPoint (ls le g : ℝ × ℝ) : ℝ × ℝ :=
  g - closestPointOnLine ls le g

def pointDistance (ls le g : ℝ × ℝ) : ℝ :=
  len2 (toPoint ls le g)

/-- awayDirection = toPoint / max(pointDistance, 0.001): second
epsilon-clamped denominator. -/
def awayDirection (ls le g : ℝ × ℝ) : ℝ × ℝ :=
  vecDiv (toPoint ls le g) (max (pointDistance ls le g) 0.001)

def bendAmount (ls le g : ℝ × ℝ) (uvY : ℝ) : ℝ :=
  bendStrength ls le g * uvY

def sphereInfluenceXZ (ls le g : ℝ × ℝ) (uvY : ℝ) : ℝ × ℝ :=
  ((awayDirection ls le g).1 * bendAmount ls le g uvY,
    (awayDirection ls le g).2 * bendAmount ls le g uvY)

/-- Height compensation: sphereInfluence.y =
-horizontalBend * horizontalBend * 0.3 * uv.y. -/
def sphereInfluenceY (ls le g : ℝ × ℝ) (uvY : ℝ) : ℝ :=
  -(len2 (sphereInfluenceXZ ls le g uvY)) * len2 (sphereInfluenceXZ ls le g uvY)
    * (3 / 10) * uvY

/-- Branch-free variant of src/unnamed/part_000 (radius 1.45, no
isActive gating): bendStrength = smoothstep(0,1, 1 - d/1.45) * lineFalloff. -/
def p000_bendStrength (ls le g : ℝ × ℝ) : ℝ :=
  smoothstepG 0 1 (1 - distanceToLine ls le g / (145 / 100)) * lineFalloff ls le g

/-! ## Rest pose (initial bend) and wind, from the same shader -/

def baseBendX (idx : ℝ) : ℝ :=
  Real.cos (bendAngle idx) * bendMagnitude idx

def baseBendZ (idx : ℝ) : ℝ :=
  Real.sin (bendAngle idx) * bendMagnitude idx

/-- bendInfluence = uv.y * uv.y. -/
def bendInfluence (uvY : ℝ) : ℝ :=
  uvY * uvY

def initialBendXZ (grassHeight idx uvY : ℝ) : ℝ × ℝ :=
  (baseBendX idx * bendInfluence uvY * heightVar grassHeight idx,
    baseBendZ idx * bendInfluence uvY * heightVar grassHeight idx)

/-- initialBend.y = -initialBendLength * initialBendLength * 0.2 * uv.y. -/
def initialBendY (grassHeight idx uvY : ℝ) : ℝ :=
  -(len2 (initialBendXZ grassHeight idx uvY)) * len2 (initialBendXZ grassHeight idx uvY)
    * (2 / 10) * uvY

def windTime (time windSpeed : ℝ) : ℝ :=
  time * windSpeed * 2

def windCoord (g : ℝ × ℝ) (time windSpeed : ℝ) : ℝ × ℝ :=
  (g.1 * (1 / 10) + windTime time windSpeed * (-(3 / 10)),
    g.2 * (1 / 10) + windTime time windSpeed * (-(2 / 10)))

/-- Multi-octave wind noise:
noise(wc)*0.25 + noise(wc*2)*0.25 + noise(wc*4)*0.125. -/
def windNoiseVal (g : ℝ × ℝ) (time windSpeed : ℝ) : ℝ :=
  noise (windCoord g time windSpeed) * (1 / 4)
    + noise ((2 : ℝ) • windCoord g time windSpeed) * (1 / 4)
    + noise ((4 : ℝ) • windCoord g time windSpeed) * (1 / 8)

def gustCoord (g : ℝ × ℝ) (time windSpeed : ℝ) : ℝ × ℝ :=
  (g.1 * (5 / 100) + windTime time windSpeed * (-(8 / 10)),
    g.2 * (5 / 100) + windTime time windSpeed * (-(1 / 10)))

def gustPattern (g : ℝ × ℝ) (time windSpeed : ℝ) : ℝ :=
  noise (gustCoord g time windSpeed) * (7 / 10)

/-- totalWind = (windNoise + gustPattern) * 0.4 * windSpeed * (1/stiffness). -/
def totalWind (idx : ℝ) (g : ℝ × ℝ) (time windSpeed : ℝ) : ℝ :=
  (windNoiseVal g time windSpeed + gustPattern g time windSpeed) * (4 / 10) * windSpeed
    * (1 / stiffness idx)

/-- windInfluence = uv.y^3 (cubic tip emphasis). -/
def windInfluence (uvY : ℝ) : ℝ :=
  uvY * uvY * uvY

def windBendXZ (idx : ℝ) (g : ℝ × ℝ) (time windSpeed uvY : ℝ) : ℝ × ℝ :=
  (totalWind idx g time windSpeed * windInfluence uvY,
    totalWind idx g time windSpeed * windInfluence uvY * (3 / 10))

/-- windBend.y = -windBendLength * windBendLength * 0.1 * uv.y. -/
def windBendY (idx : ℝ) (g : ℝ × ℝ) (time windSpeed uvY : ℝ) : ℝ :=
  -(len2 (windBendXZ idx g time windSpeed uvY)) * len2 (windBendXZ idx g time windSpeed uvY)
    * (1 / 10) * uvY

/-- The total horizontal displacement applied to a vertex: rest bend +
trail bend + wind bend, all evaluated at the instance's generated field
position. -/
def totalHorizontalBend (idx fieldSize grassHeight time windSpeed uvY : ℝ)
    (ls le : ℝ × ℝ) : ℝ × ℝ :=
  initialBendXZ grassHeight idx uvY
    + sphereInfluenceXZ ls le (fieldPos idx fieldSize) uvY
    + windBendXZ idx (fieldPos idx fieldSize) time windSpeed uvY

/-! ## Kinetic sphere controller (src/App.tsx KineticSphere/useFrame) -/

/-- The four directional key flags. -/
structure Keys where
  w : Bool
  a : Bool
  s : Bool
  d : Bool

/-- Pointer state: engaged flag and optional ground-intersection target. -/
structure MouseState where
  pressed : Bool
  target : Option (ℝ × ℝ × ℝ)

def forceStrength : ℝ := 8

/-- Force accumulated from the key flags: w/s move along -z/+z, a/d
along -x/+x, each contributing forceStrength. -/
def keyForce (k : Keys) : ℝ × ℝ × ℝ :=
  ((if k.d then forceStrength else 0) - (if k.a then forceStrength else 0), 0,
    (if k.s then forceStrength else 0) - (if k.w then forceStrength else 0))

/-- Pointer-directed force: only when a target exists AND the pointer is
engaged; direction = target - position with y zeroed, normalized, scaled
by the same forceStrength. -/
def mouseForce (m : MouseState) (pos : ℝ × ℝ × ℝ) : ℝ × ℝ × ℝ :=
  match m.target, m.pressed with
  | some t, true =>
      forceStrength • threeNormalize (t.1 - pos.1, 0, t.2.2 - pos.2.2)
  | _, _ => (0, 0, 0)

def totalForce (k : Keys) (m : MouseState) (pos : ℝ × ℝ × ℝ) : ℝ × ℝ × ℝ :=
  keyForce k + mouseForce m pos

def dampingFactor : ℝ := 98 / 100

/-- One frame of velocity integration:
velocity.add(force * delta); velocity.multiplyScalar(0.98). -/
def velocityStep (k : Keys) (m : MouseState) (pos v : ℝ × ℝ × ℝ) (dt : ℝ) :
    ℝ × ℝ × ℝ :=
  dampingFactor • (v + dt • totalForce k m pos)

/-- handleMouseUp: isMousePressed := false; mouseTarget := null. -/
def handleMouseUp (_ : MouseState) : MouseState :=
  ⟨false, none⟩

/-- The per-frame raycast block: targets are only (re)assigned while the
pointer is pressed and a ground intersection exists. -/
def frameMouseUpdate (m : MouseState) (hit : Option (ℝ × ℝ × ℝ)) : MouseState :=
  if m.pressed then
    match hit with
    | some p => ⟨m.pressed, some p⟩
    | none => m
  else m

open Classical in
/-- Rolling rotation axis: computed (and normalized) only when
speed > 0.05; otherwise no rotation is applied this frame. -/
def rollingAxis (v : ℝ × ℝ × ℝ) : Option (ℝ × ℝ × ℝ) :=
  if 5 / 100 < len3 v then some (threeNormalize (-v.2.2, 0, v.1)) else none

/-- Keys state with only forward (w) held. -/
def keysW : Keys := ⟨true, false, false, false⟩

/-- Keys state with nothing held. -/
def keysNone : Keys := ⟨false, false, false, false⟩

/-- Idle pointer. -/
def mouseIdle : MouseState := ⟨false, none⟩

/-- Velocity sequence with only forward input held, dt = 1/60. -/
def wHeldVel : ℕ → ℝ × ℝ × ℝ
  | 0 => (0, 0, 0)
  | n + 1 => velocityStep keysW mouseIdle (0, 1, 0) (wHeldVel n) (1 / 60)

end RealModel

/-- Exact rational model of the speed recurrence of the scenario of C7:
speed' = 0.98 * (speed + 8 * (1/60)). -/
def qSpeed : ℕ → ℚ
  | 0 => 0
  | n + 1 => (98 / 100) * (qSpeed n + 8 * (1 / 60))

/-! ## Vector computation lemmas -/

theorem smul3 (c x y z : ℝ) : c • ((x, y, z) : ℝ × ℝ × ℝ) = (c * x, c * y, c * z) :=
  rfl

theorem add3 (a b c d e f : ℝ) :
    ((a, b, c) : ℝ × ℝ × ℝ) + (d, e, f) = (a + d, b + e, c + f) :=
  rfl

theorem len3_nonneg (v : ℝ × ℝ × ℝ) : 0 ≤ len3 v :=
  Real.sqrt_nonneg _

theorem len3_smul {c : ℝ} (hc : 0 ≤ c) (v : ℝ × ℝ × ℝ) :
    len3 (c • v) = c * len3 v := by
  obtain ⟨x, y, z⟩ := v
  rw [smul3]
  simp only [len3]
  rw [show c * x * (c * x) + c * y * (c * y) + c * z * (c * z)
      = c ^ 2 * (x * x + y * y + z * z) by ring,
    Real.sqrt_mul (sq_nonneg c), Real.sqrt_sq hc]

theorem mouseForce_snd_fst (m : MouseState) (pos : ℝ × ℝ × ℝ) :
    (mouseForce m pos).2.1 = 0 := by
  obtain ⟨p, tg⟩ := m
  cases tg with
  | none => rfl
  | some t =>
    cases p with
    | false => rfl
    | true =>
      show (forceStrength • threeNormalize (t.1 - pos.1, 0, t.2.2 - pos.2.2)).2.1 = 0
      rw [threeNormalize]
      split_ifs with h
      · rw [smul3]
        simp
      · rw [smul3]
        simp

/-! ## C10: no input means pure geometric decay -/

/-- C10: in a frame with no directional key held and no applicable
pointer force (pointer not engaged, or no target), the accumulated
force is the zero vector, the velocity update is exactly the damping
scale 0.98, and the speed decays by exactly the factor 0.98 — never
increasing — for every initial velocity and dt. -/
theorem c10_no_input_decay (m : MouseState) (pos v : ℝ × ℝ × ℝ) (dt : ℝ)
    (h : m.pressed = false ∨ m.target = none) :
    totalForce keysNone m pos = (0, 0, 0)
    ∧ velocityStep keysNone m pos v dt = dampingFactor • v
    ∧ len3 (velocityStep keysNone m pos v dt) = (98 / 100) * len3 v
    ∧ len3 (velocityStep keysNone m pos v dt) ≤ len3 v := by
  have hm : mouseForce m pos = (0, 0, 0) := by
    obtain ⟨p, tg⟩ := m
    rcases h with h | h
    · have hp : p = false := h
      subst hp
      cases tg <;> rfl
    · have ht : tg = none := h
      subst ht
      cases p <;> rfl
  have hk : keyForce keysNone = (0, 0, 0) := by
    simp [keyForce, keysNone]
  have hf : totalForce keysNone m pos = (0, 0, 0) := by
    rw [totalForce, hk, hm, add3]
    norm_num
  have hv : velocityStep keysNone m pos v dt = dampingFactor • v := by
    rw [velocityStep, hf]
    have : dt • ((0, 0, 0) : ℝ × ℝ × ℝ) = (0, 0, 0) := by
      rw [smul3]
      norm_num
    rw [this]
    have : v + ((0, 0, 0) : ℝ × ℝ × ℝ) = v := by
      obtain ⟨x, y, z⟩ := v
      rw [add3]
      norm_num
    rw [this]
  have hd : (0:ℝ) ≤ dampingFactor := by norm_num [dampingFactor]
  have hlen : len3 (velocityStep keysNone m pos v dt) = (98 / 100) * len3 v := by
    rw [hv, len3_smul hd, dampingFactor]
  refine ⟨hf, hv, hlen, ?_⟩
  rw [hlen]
  nlinarith [len3_nonneg v]

/-- Witness for C10: pointer released but with a stale target still in
memory, arbitrary concrete velocity. -/
theorem c10_no_input_decay_witness :
    ((⟨false, some (5, 0, 0)⟩ : MouseState).pressed = false ∨
      (⟨false, some (5, 0, 0)⟩ : MouseState).target = none) ∧
    (totalForce keysNone ⟨false, some (5, 0, 0)⟩ (0, 1, 0) = (0, 0, 0)
    ∧ velocityStep keysNone ⟨false, some (5, 0, 0)⟩ (0, 1, 0) (3, 0, 4) (1 / 60)
        = dampingFactor • ((3 : ℝ), (0 : ℝ), (4 : ℝ))
    ∧ len3 (velocityStep keysNone ⟨false, some (5, 0, 0)⟩ (0, 1, 0) (3, 0, 4) (1 / 60))
        = (98 / 100) * len3 (3, 0, 4)
    ∧ len3 (velocityStep keysNone ⟨false, some (5, 0, 0)⟩ (0, 1, 0) (3, 0, 4) (1 / 60))
        ≤ len3 (3, 0, 4)) :=
  ⟨Or.inl rfl, c10_no_input_decay ⟨false, some (5, 0, 0)⟩ (0, 1, 0) (3, 0, 4) (1 / 60)
    (Or.inl rfl)⟩

/-! ## C8: pointer release invalidates the target -/

/-- C8: handleMouseUp clears the stored target (and the engaged flag) in
the same event; in any frame in which the pointer is not engaged the
pointer-directed force contribution is exactly the zero vector — even if
a stale target point is still stored — and the raycast block leaves the
state untouched, so the target stays cleared on every subsequent frame
without a new press. -/
theorem c8_pointer_release_zero_force :
    (∀ m : MouseState, (handleMouseUp m).target = none ∧ (handleMouseUp m).pressed = false)
    ∧ (∀ (m : MouseState) (pos : ℝ × ℝ × ℝ),
        m.pressed = false → mouseForce m pos = (0, 0, 0))
    ∧ (∀ (m : MouseState) (hit : Option (ℝ × ℝ × ℝ)),
        m.pressed = false → frameMouseUpdate m hit = m) := by
  refine ⟨fun m => ⟨rfl, rfl⟩, ?_, ?_⟩
  · intro m pos h
    obtain ⟨p, tg⟩ := m
    have hp : p = false := h
    subst hp
    cases tg <;> rfl
  · intro m hit h
    simp [frameMouseUpdate, h]

/-- Witness for C8: a freshly released pointer with a stale target in
memory exerts no force, and the release event cleared the target. -/
theorem c8_pointer_release_zero_force_witness :
    (handleMouseUp ⟨true, some (1, 2, 3)⟩).target = none
    ∧ mouseForce ⟨false, some (1, 2, 3)⟩ (0, 1, 0) = (0, 0, 0) :=
  ⟨(c8_pointer_release_zero_force.1 ⟨true, some (1, 2, 3)⟩).1,
    c8_pointer_release_zero_force.2.1 ⟨false, some (1, 2, 3)⟩ (0, 1, 0) rfl⟩

/-! ## C7: speed convergence under held forward input -/

theorem qSpeed_closed (n : ℕ) :
    qSpeed n = (98 / 15) * (1 - (49 / 50) ^ n) := by
  induction n with
  | zero => simp [qSpeed]
  | succ n ih =>
    rw [qSpeed, ih]
    ring

theorem qSpeed_nonneg (n : ℕ) : 0 ≤ qSpeed n := by
  rw [qSpeed_closed]
  have h1 : ((49 : ℚ) / 50) ^ n ≤ 1 := pow_le_one₀ (by norm_num) (by norm_num)
  nlinarith

theorem qSpeed_lt (n : ℕ) : qSpeed n < 98 / 15 := by
  rw [qSpeed_closed]
  have h0 : (0:ℚ) < (49 / 50) ^ n := pow_pos (by norm_num) n
  nlinarith

theorem qSpeed_strictMono : StrictMono qSpeed := by
  apply strictMono_nat_of_lt_succ
  intro n
  rw [qSpeed_closed, qSpeed_closed]
  have h0 : (0:ℚ) < (49 / 50) ^ n := pow_pos (by norm_num) n
  rw [pow_succ]
  nlinarith

theorem wHeldVel_eq (n : ℕ) : wHeldVel n = (0, 0, -((qSpeed n : ℚ) : ℝ)) := by
  induction n with
  | zero =>
    show ((0, 0, 0) : ℝ × ℝ × ℝ) = _
    rw [qSpeed]
    norm_num
  | succ n ih =>
    rw [wHeldVel, ih]
    have hmf : mouseForce mouseIdle (0, 1, 0) = (0, 0, 0) := rfl
    have hkf : keyForce keysW = (0, 0, -8) := by
      simp [keyForce, keysW, forceStrength]
    rw [velocityStep, totalForce, hkf, hmf, add3, smul3, add3, smul3, dampingFactor]
    push_cast [qSpeed]
    norm_num
    ring

/-- C7: with only forward input held at dt = 1/60, force 8 and damping
0.98 per frame, the speed sequence is exactly the rational recurrence
qSpeed, which is strictly increasing, stays below the fixed point
damping*force*dt/(1 - damping) = 98/15 for every frame count, and
converges to it. -/
theorem c7_speed_convergence :
    (∀ n : ℕ, len3 (wHeldVel n) = ((qSpeed n : ℚ) : ℝ))
    ∧ StrictMono qSpeed
    ∧ (∀ n : ℕ, qSpeed n < (98 / 100) * 8 * (1 / 60) / (1 - 98 / 100))
    ∧ Filter.Tendsto (fun n : ℕ => ((qSpeed n : ℚ) : ℝ)) Filter.atTop
        (nhds (((98 / 100) * 8 * (1 / 60) / (1 - 98 / 100) : ℚ) : ℝ)) := by
  have hL : ((98 / 100) * 8 * (1 / 60) / (1 - 98 / 100) : ℚ) = 98 / 15 := by
    norm_num
  refine ⟨?_, qSpeed_strictMono, ?_, ?_⟩
  · intro n
    rw [wHeldVel_eq n]
    simp only [len3]
    rw [show (0 * 0 + 0 * 0 + -((qSpeed n : ℚ) : ℝ) * -((qSpeed n : ℚ) : ℝ) : ℝ)
        = (((qSpeed n : ℚ) : ℝ)) ^ 2 by ring]
    rw [Real.sqrt_sq (by exact_mod_cast qSpeed_nonneg n)]
  · intro n
    rw [hL]
    exact qSpeed_lt n
  · rw [hL]
    have hr0 : (0:ℝ) ≤ 49 / 50 := by norm_num
    have hr1 : (49 / 50 : ℝ) < 1 := by norm_num
    have hpow := tendsto_pow_atTop_nhds_zero_of_lt_one hr0 hr1
    have hmul := hpow.const_mul ((98 : ℝ) / 15)
    have hsub := (tendsto_const_nhds
      (x := (98 : ℝ) / 15) (f := Filter.atTop (α := ℕ))).sub hmul
    simp only [mul_zero, sub_zero] at hsub
    have hcast : (((98 : ℚ) / 15 : ℚ) : ℝ) = 98 / 15 := by norm_num
    rw [hcast]
    refine hsub.congr ?_
    intro n
    rw [qSpeed_closed]
    push_cast
    ring

/-! ## C6: epsilon-clamped denominators and the rotation guard -/

/-- C6: the projection and away-direction denominators are clamped to
the epsilon 0.001 for every input, so the trail bend never divides by
zero; the rolling-rotation axis is never computed when the speed is at
or below the threshold 0.05; when it is computed, the vector being
normalized has positive length (using the controller invariant that the
y velocity component is identically zero, which the velocity update
preserves). -/
theorem c6_no_nan_guards :
    (∀ ls le : ℝ × ℝ, (0.001 : ℝ) ≤ safeLineLength ls le)
    ∧ (∀ ls le g : ℝ × ℝ, (0.001 : ℝ) ≤ max (pointDistance ls le g) 0.001)
    ∧ (∀ v : ℝ × ℝ × ℝ, len3 v ≤ 5 / 100 → rollingAxis v = none)
    ∧ (∀ v : ℝ × ℝ × ℝ, v.2.1 = 0 → 5 / 100 < len3 v →
        rollingAxis v = some (threeNormalize (-v.2.2, 0, v.1))
        ∧ 0 < len3 (-v.2.2, 0, v.1))
    ∧ (∀ (k : Keys) (m : MouseState) (pos v : ℝ × ℝ × ℝ) (dt : ℝ),
        v.2.1 = 0 → (velocityStep k m pos v dt).2.1 = 0) := by
  refine ⟨fun ls le => le_max_right _ _, fun ls le g => le_max_right _ _, ?_, ?_, ?_⟩
  · intro v h
    rw [rollingAxis, if_neg (not_lt.2 h)]
  · intro v hy h
    have haxis : len3 (-v.2.2, 0, v.1) = len3 v := by
      simp only [len3, hy]
      congr 1
      ring
    refine ⟨?_, ?_⟩
    · rw [rollingAxis, if_pos h]
    · rw [haxis]
      linarith
  · intro k m pos v dt hy
    have hftot : (totalForce k m pos).2.1 = 0 := by
      rw [totalForce]
      have h1 : (keyForce k).2.1 = 0 := rfl
      have h2 := mouseForce_snd_fst m pos
      rw [Prod.snd_add, Prod.fst_add, h1, h2, add_zero]
    rw [velocityStep, Prod.smul_snd, Prod.smul_fst, Prod.snd_add, Prod.fst_add,
      Prod.smul_snd, Prod.smul_fst, hy, hftot]
    simp

/-- Witness for C6: zero velocity is below the threshold, so no axis is
computed; a fast diagonal velocity with zero y passes the guard with a
nonzero normalization input; the epsilon clamps at a degenerate
(zero-length) segment. -/
theorem c6_no_nan_guards_witness :
    (0.001 : ℝ) ≤ safeLineLength (0, 0) (0, 0)
    ∧ rollingAxis (0, 0, 0) = none
    ∧ (rollingAxis (3, 0, 4) = some (threeNormalize (-(4 : ℝ), 0, 3))
        ∧ 0 < len3 (-(4 : ℝ), 0, 3)) := by
  have hz : len3 ((0 : ℝ), (0 : ℝ), (0 : ℝ)) ≤ 5 / 100 := by
    simp only [len3]
    rw [show (0 * 0 + 0 * 0 + 0 * 0 : ℝ) = 0 by ring, Real.sqrt_zero]
    norm_num
  have hfast : (5 : ℝ) / 100 < len3 ((3 : ℝ), (0 : ℝ), (4 : ℝ)) := by
    simp only [len3]
    rw [show (3 * 3 + 0 * 0 + 4 * 4 : ℝ) = 5 ^ 2 by ring, Real.sqrt_sq (by norm_num : (0:ℝ) ≤ 5)]
    norm_num
  exact ⟨c6_no_nan_guards.1 (0, 0) (0, 0),
    c6_no_nan_guards.2.2.1 (0, 0, 0) hz,
    c6_no_nan_guards.2.2.2.1 (3, 0, 4) rfl hfast⟩

/-! ## Planar length lemmas -/

theorem len2_nonneg (v : ℝ × ℝ) : 0 ≤ len2 v :=
  Real.sqrt_nonneg _

theorem len2_mul_self (v : ℝ × ℝ) : len2 v * len2 v = v.1 ^ 2 + v.2 ^ 2 := by
  have h : 0 ≤ dot2 v v := by
    rw [dot2]
    nlinarith [sq_nonneg v.1, sq_nonneg v.2]
  rw [len2, Real.mul_self_sqrt h, dot2]
  ring

theorem abs_fst_le_len2 (v : ℝ × ℝ) : |v.1| ≤ len2 v := by
  rw [len2, dot2, show |v.1| = Real.sqrt (v.1 ^ 2) from (Real.sqrt_sq_eq_abs v.1).symm]
  apply Real.sqrt_le_sqrt
  nlinarith [sq_nonneg v.2]

theorem abs_snd_le_len2 (v : ℝ × ℝ) : |v.2| ≤ len2 v := by
  rw [len2, dot2, show |v.2| = Real.sqrt (v.2 ^ 2) from (Real.sqrt_sq_eq_abs v.2).symm]
  apply Real.sqrt_le_sqrt
  nlinarith [sq_nonneg v.1]

theorem len2_le_abs_add (v : ℝ × ℝ) : len2 v ≤ |v.1| + |v.2| := by
  rw [len2, dot2]
  have h : v.1 * v.1 + v.2 * v.2 ≤ (|v.1| + |v.2|) ^ 2 := by
    nlinarith [abs_mul_abs_self v.1, abs_mul_abs_self v.2,
      mul_nonneg (abs_nonneg v.1) (abs_nonneg v.2)]
  calc Real.sqrt (v.1 * v.1 + v.2 * v.2) ≤ Real.sqrt ((|v.1| + |v.2|) ^ 2) :=
        Real.sqrt_le_sqrt h
    _ = |v.1| + |v.2| := Real.sqrt_sq (by positivity)

/-! ## C9: vertical foreshortening of every bend contribution -/

/-- C9: each of the three height-compensation terms equals minus its
per-contribution constant (0.2, 0.3, 0.1) times uv.y times the squared
horizontal bend magnitude, and is therefore non-positive whenever
uv.y is non-negative: lateral bend displaces the vertex downward. -/
theorem c9_vertical_foreshortening (grassHeight idx uvY time windSpeed : ℝ)
    (ls le g : ℝ × ℝ) (huv : 0 ≤ uvY) :
    (initialBendY grassHeight idx uvY
      = -((2 / 10) * uvY * ((initialBendXZ grassHeight idx uvY).1 ^ 2
          + (initialBendXZ grassHeight idx uvY).2 ^ 2))
      ∧ initialBendY grassHeight idx uvY ≤ 0)
    ∧ (sphereInfluenceY ls le g uvY
      = -((3 / 10) * uvY * ((sphereInfluenceXZ ls le g uvY).1 ^ 2
          + (sphereInfluenceXZ ls le g uvY).2 ^ 2))
      ∧ sphereInfluenceY ls le g uvY ≤ 0)
    ∧ (windBendY idx g time windSpeed uvY
      = -((1 / 10) * uvY * ((windBendXZ idx g time windSpeed uvY).1 ^ 2
          + (windBendXZ idx g time windSpeed uvY).2 ^ 2))
      ∧ windBendY idx g time windSpeed uvY ≤ 0) := by
  have key : ∀ (v : ℝ × ℝ) (c : ℝ), 0 ≤ c →
      (-(len2 v) * len2 v * c * uvY = -(c * uvY * (v.1 ^ 2 + v.2 ^ 2))
        ∧ -(len2 v) * len2 v * c * uvY ≤ 0) := by
    intro v c hc
    constructor
    · linear_combination (-(c * uvY)) * len2_mul_self v
    · nlinarith [mul_nonneg (mul_nonneg (mul_nonneg (len2_nonneg v) (len2_nonneg v)) hc) huv]
  exact ⟨key (initialBendXZ grassHeight idx uvY) (2 / 10) (by norm_num),
    key (sphereInfluenceXZ ls le g uvY) (3 / 10) (by norm_num),
    key (windBendXZ idx g time windSpeed uvY) (1 / 10) (by norm_num)⟩

/-- Witness for C9 at uv.y = 1, concrete parameters. -/
theorem c9_vertical_foreshortening_witness :
    (0 : ℝ) ≤ 1 ∧
    (initialBendY (13 / 10) 0 1
      = -((2 / 10) * 1 * ((initialBendXZ (13 / 10) 0 1).1 ^ 2
          + (initialBendXZ (13 / 10) 0 1).2 ^ 2))
      ∧ initialBendY (13 / 10) 0 1 ≤ 0) :=
  ⟨by norm_num,
    (c9_vertical_foreshortening (13 / 10) 0 1 0 1 (0, 0) (1, 0) (2, 3)
      (by norm_num)).1⟩

/-! ## C4: trail bend geometry -/

theorem bendStrengthDist_nonneg (ls le g : ℝ × ℝ) : 0 ≤ bendStrengthDist ls le g := by
  rw [bendStrengthDist]
  exact (smoothstepG01_mem _).1

theorem bendStrengthDist_le_one (ls le g : ℝ × ℝ) : bendStrengthDist ls le g ≤ 1 := by
  rw [bendStrengthDist]
  exact (smoothstepG01_mem _).2

theorem lineFalloff_nonneg (ls le g : ℝ × ℝ) : 0 ≤ lineFalloff ls le g := by
  rw [lineFalloff]
  exact (smoothstepG01_mem _).1

theorem lineFalloff_le_one (ls le g : ℝ × ℝ) : lineFalloff ls le g ≤ 1 := by
  rw [lineFalloff]
  exact (smoothstepG01_mem _).2

theorem bendStrength_nonneg (ls le g : ℝ × ℝ) : 0 ≤ bendStrength ls le g := by
  rw [bendStrength]
  exact mul_nonneg (bendStrengthDist_nonneg ls le g) (lineFalloff_nonneg ls le g)

theorem bendStrength_le_one (ls le g : ℝ × ℝ) : bendStrength ls le g ≤ 1 := by
  rw [bendStrength]
  nlinarith [bendStrengthDist_nonneg ls le g, bendStrengthDist_le_one ls le g,
    lineFalloff_nonneg ls le g, lineFalloff_le_one ls le g]

/-- C4: for a non-degenerate segment (lineLength at least the 0.1
validity threshold) the projection parameter is clamped to
[0, lineLength]; the distance used for the strength is the distance to
the clamped closest point; the horizontal bend is a non-negative scalar
multiple of the vector from the closest point toward the instance; and
the strength is scaled by the smoothed along-line falloff, which is 0 at
projection parameter 0, leaves the full distance-based strength at
parameter 1, and is monotone in between. -/
theorem c4_trail_bend_geometry (ls le g : ℝ × ℝ) (uvY : ℝ)
    (hline : 1 / 10 ≤ lineLength ls le) (huv : 0 ≤ uvY) :
    (0 ≤ projectionLength ls le g ∧ projectionLength ls le g ≤ lineLength ls le)
    ∧ distanceToLine ls le g = len2 (g - closestPointOnLine ls le g)
    ∧ (∃ c : ℝ, 0 ≤ c ∧ sphereInfluenceXZ ls le g uvY
        = (c * (g - closestPointOnLine ls le g).1,
            c * (g - closestPointOnLine ls le g).2))
    ∧ (positionAlongLine ls le g = 0 → bendStrength ls le g = 0)
    ∧ (positionAlongLine ls le g = 1 →
        bendStrength ls le g = bendStrengthDist ls le g)
    ∧ (∀ t1 t2 : ℝ, t1 ≤ t2 →
        smoothstepG 0 1 t1 * bendStrengthDist ls le g
          ≤ smoothstepG 0 1 t2 * bendStrengthDist ls le g) := by
  have hsafe : safeLineLength ls le = lineLength ls le :=
    max_eq_left (le_trans (by norm_num) hline)
  have hsafe_nonneg : (0 : ℝ) ≤ safeLineLength ls le :=
    le_trans (by norm_num) (le_max_right _ _)
  refine ⟨?_, rfl, ?_, ?_, ?_, ?_⟩
  · have h := clampG_mem (dot2 (toGrass ls g) (lineDirection ls le)) hsafe_nonneg
    rw [projectionLength]
    exact ⟨h.1, le_of_le_of_eq h.2 hsafe⟩
  · have hmx : (0 : ℝ) < max (pointDistance ls le g) 0.001 :=
      lt_of_lt_of_le (by norm_num) (le_max_right _ _)
    refine ⟨bendAmount ls le g uvY / max (pointDistance ls le g) 0.001, ?_, ?_⟩
    · apply div_nonneg _ hmx.le
      rw [bendAmount]
      exact mul_nonneg (bendStrength_nonneg ls le g) huv
    · rw [sphereInfluenceXZ, awayDirection, vecDiv]
      have : toPoint ls le g = g - closestPointOnLine ls le g := rfl
      rw [this]
      refine Prod.ext ?_ ?_ <;> simp only <;> field_simp <;> ring
  · intro h
    rw [bendStrength, lineFalloff, h, smoothstepG01_zero, mul_zero]
  · intro h
    rw [bendStrength, lineFalloff, h, smoothstepG01_one, mul_one]
  · intro t1 t2 h
    exact mul_le_mul_of_nonneg_right (smoothstepG01_mono h) (bendStrengthDist_nonneg ls le g)

/-- Witness for C4: unit segment along x, instance beside it, tip vertex. -/
theorem c4_trail_bend_geometry_witness :
    (1 / 10 : ℝ) ≤ lineLength (0, 0) (1, 0) ∧ (0 : ℝ) ≤ 1 ∧
    ((0 ≤ projectionLength (0, 0) (1, 0) (2, 3)
      ∧ projectionLength (0, 0) (1, 0) (2, 3) ≤ lineLength (0, 0) (1, 0))
    ∧ distanceToLine (0, 0) (1, 0) (2, 3)
        = len2 ((2, 3) - closestPointOnLine (0, 0) (1, 0) (2, 3))
    ∧ (∃ c : ℝ, 0 ≤ c ∧ sphereInfluenceXZ (0, 0) (1, 0) (2, 3) 1
        = (c * ((2, 3) - closestPointOnLine (0, 0) (1, 0) (2, 3)).1,
            c * ((2, 3) - closestPointOnLine (0, 0) (1, 0) (2, 3)).2))
    ∧ (positionAlongLine (0, 0) (1, 0) (2, 3) = 0 →
        bendStrength (0, 0) (1, 0) (2, 3) = 0)
    ∧ (positionAlongLine (0, 0) (1, 0) (2, 3) = 1 →
        bendStrength (0, 0) (1, 0) (2, 3) = bendStrengthDist (0, 0) (1, 0) (2, 3))
    ∧ (∀ t1 t2 : ℝ, t1 ≤ t2 →
        smoothstepG 0 1 t1 * bendStrengthDist (0, 0) (1, 0) (2, 3)
          ≤ smoothstepG 0 1 t2 * bendStrengthDist (0, 0) (1, 0) (2, 3))) := by
  have hlen : lineLength ((0 : ℝ), (0 : ℝ)) (1, 0) = 1 := by
    rw [lineLength, lineVector, Prod.mk_sub_mk, len2, dot2]
    simp only
    rw [show ((1 : ℝ) - 0) * ((1 : ℝ) - 0) + ((0 : ℝ) - 0) * ((0 : ℝ) - 0) = 1 by norm_num]
    exact Real.sqrt_one
  refine ⟨by rw [hlen]; norm_num, by norm_num, ?_⟩
  exact c4_trail_bend_geometry (0, 0) (1, 0) (2, 3) 1
    (by rw [hlen]; norm_num) (by norm_num)

/-! ## C5: bounded total horizontal displacement -/

theorem stiffness_ge (idx : ℝ) : 1 / 2 ≤ stiffness idx := by
  rw [stiffness]
  nlinarith [(hash11_mem (idx * (71 / 10000))).1]

theorem inv_stiffness_mem (idx : ℝ) :
    0 < 1 / stiffness idx ∧ 1 / stiffness idx ≤ 2 := by
  have h := stiffness_ge idx
  have hpos : (0 : ℝ) < stiffness idx := by linarith
  constructor
  · positivity
  · rw [div_le_iff₀ hpos]
    linarith

theorem windNoiseVal_mem (g : ℝ × ℝ) (time windSpeed : ℝ) :
    0 ≤ windNoiseVal g time windSpeed ∧ windNoiseVal g time windSpeed ≤ 5 / 8 := by
  rw [windNoiseVal]
  have h1 := noise_mem (windCoord g time windSpeed)
  have h2 := noise_mem ((2 : ℝ) • windCoord g time windSpeed)
  have h3 := noise_mem ((4 : ℝ) • windCoord g time windSpeed)
  constructor <;> nlinarith [h1.1, h1.2, h2.1, h2.2, h3.1, h3.2]

theorem gustPattern_mem (g : ℝ × ℝ) (time windSpeed : ℝ) :
    0 ≤ gustPattern g time windSpeed ∧ gustPattern g time windSpeed ≤ 7 / 10 := by
  rw [gustPattern]
  have h := noise_mem (gustCoord g time windSpeed)
  constructor <;> nlinarith [h.1, h.2]

theorem totalWind_abs_le (idx : ℝ) (g : ℝ × ℝ) (time windSpeed : ℝ)
    (hws : 0 ≤ windSpeed) :
    |totalWind idx g time windSpeed| ≤ (53 / 50) * windSpeed := by
  have hwn := windNoiseVal_mem g time windSpeed
  have hgp := gustPattern_mem g time windSpeed
  have hst := inv_stiffness_mem idx
  have hnn : 0 ≤ totalWind idx g time windSpeed := by
    rw [totalWind]
    have hsum0 : 0 ≤ windNoiseVal g time windSpeed + gustPattern g time windSpeed := by
      linarith [hwn.1, hgp.1]
    exact mul_nonneg (mul_nonneg (mul_nonneg hsum0 (by norm_num)) hws) hst.1.le
  rw [abs_of_nonneg hnn, totalWind]
  have hsum : windNoiseVal g time windSpeed + gustPattern g time windSpeed ≤ 53 / 40 := by
    linarith [hwn.2, hgp.2]
  have hsum0 : 0 ≤ windNoiseVal g time windSpeed + gustPattern g time windSpeed := by
    linarith [hwn.1, hgp.1]
  nlinarith [mul_le_mul hsum hst.2 hst.1.le (by linarith : (0:ℝ) ≤ 53 / 40),
    mul_nonneg hsum0 hst.1.le, mul_nonneg (mul_nonneg hsum0 hst.1.le) hws]

theorem windBendXZ_abs_le (idx : ℝ) (g : ℝ × ℝ) (time windSpeed uvY : ℝ)
    (hws : 0 ≤ windSpeed) (huv0 : 0 ≤ uvY) (huv1 : uvY ≤ 1) :
    |(windBendXZ idx g time windSpeed uvY).1| ≤ (53 / 50) * windSpeed
    ∧ |(windBendXZ idx g time windSpeed uvY).2| ≤ (159 / 500) * windSpeed := by
  have htw := totalWind_abs_le idx g time windSpeed hws
  have htw0 := abs_nonneg (totalWind idx g time windSpeed)
  have hinf : 0 ≤ windInfluence uvY ∧ windInfluence uvY ≤ 1 := by
    rw [windInfluence]
    constructor <;> nlinarith
  rw [windBendXZ]
  constructor
  · simp only
    rw [abs_mul, abs_of_nonneg hinf.1]
    nlinarith [hinf.1, hinf.2]
  · simp only
    rw [abs_mul, abs_mul, abs_of_nonneg hinf.1, abs_of_nonneg (by norm_num : (0:ℝ) ≤ (3:ℝ) / 10)]
    nlinarith [hinf.1, hinf.2]

theorem bendMagnitude_mem (idx : ℝ) :
    0 ≤ bendMagnitude idx ∧ bendMagnitude idx ≤ 1 / 4 := by
  rw [bendMagnitude]
  have h := hash22_snd_mem (K := ℝ) (idx * (41 / 10000), idx * (47 / 10000))
  rw [bendVars]
  constructor <;> nlinarith [h.1, h.2]

theorem heightVar_mem {grassHeight : ℝ} (idx : ℝ) (hgh : 0 ≤ grassHeight) :
    0 ≤ heightVar grassHeight idx ∧ heightVar grassHeight idx ≤ grassHeight + 8 / 10 := by
  rw [heightVar]
  have h := hash22_fst_mem (K := ℝ) (idx * (19 / 10000), idx * (23 / 10000))
  rw [sizeVars]
  constructor <;> nlinarith [h.1, h.2]

theorem initialBendXZ_abs_le {grassHeight : ℝ} (idx uvY : ℝ)
    (hgh : 0 ≤ grassHeight) (huv0 : 0 ≤ uvY) (huv1 : uvY ≤ 1) :
    |(initialBendXZ grassHeight idx uvY).1| ≤ (1 / 4) * (grassHeight + 8 / 10)
    ∧ |(initialBendXZ grassHeight idx uvY).2| ≤ (1 / 4) * (grassHeight + 8 / 10) := by
  have hmag := bendMagnitude_mem idx
  have hh := heightVar_mem idx hgh
  have hinfl : 0 ≤ bendInfluence uvY ∧ bendInfluence uvY ≤ 1 := by
    rw [bendInfluence]
    constructor <;> nlinarith
  have hcos : |Real.cos (bendAngle idx)| ≤ 1 := Real.abs_cos_le_one _
  have hsin : |Real.sin (bendAngle idx)| ≤ 1 := Real.abs_sin_le_one _
  have key : ∀ t : ℝ, |t| ≤ 1 →
      |t| * bendMagnitude idx * bendInfluence uvY * heightVar grassHeight idx
        ≤ 1 / 4 * (grassHeight + 8 / 10) := by
    intro t ht
    have habs0 : 0 ≤ |t| := abs_nonneg t
    have step1 : |t| * bendMagnitude idx ≤ 1 / 4 := by
      nlinarith [mul_nonneg (sub_nonneg.2 ht) hmag.1]
    have step1n : 0 ≤ |t| * bendMagnitude idx := mul_nonneg habs0 hmag.1
    have step2 : |t| * bendMagnitude idx * bendInfluence uvY ≤ 1 / 4 := by
      nlinarith [mul_nonneg step1n (sub_nonneg.2 hinfl.2), mul_nonneg step1n hinfl.1]
    exact mul_le_mul step2 hh.2 hh.1 (by norm_num)
  rw [initialBendXZ]
  constructor
  · simp only
    rw [baseBendX, abs_mul, abs_mul, abs_mul, abs_of_nonneg hmag.1, abs_of_nonneg hinfl.1,
      abs_of_nonneg hh.1]
    exact key _ hcos
  · simp only
    rw [baseBendZ, abs_mul, abs_mul, abs_mul, abs_of_nonneg hmag.1, abs_of_nonneg hinfl.1,
      abs_of_nonneg hh.1]
    exact key _ hsin

theorem awayDirection_abs_le (ls le g : ℝ × ℝ) :
    |(awayDirection ls le g).1| ≤ 1 ∧ |(awayDirection ls le g).2| ≤ 1 := by
  have hmx : (0 : ℝ) < max (pointDistance ls le g) 0.001 :=
    lt_of_lt_of_le (by norm_num) (le_max_right _ _)
  have h1 : |(toPoint ls le g).1| ≤ max (pointDistance ls le g) 0.001 :=
    le_trans (abs_fst_le_len2 _) (le_max_left _ _)
  have h2 : |(toPoint ls le g).2| ≤ max (pointDistance ls le g) 0.001 :=
    le_trans (abs_snd_le_len2 _) (le_max_left _ _)
  rw [awayDirection, vecDiv]
  constructor
  · simp only
    rw [abs_div, abs_of_pos hmx, div_le_one hmx]
    exact h1
  · simp only
    rw [abs_div, abs_of_pos hmx, div_le_one hmx]
    exact h2

theorem sphereInfluenceXZ_abs_le (ls le g : ℝ × ℝ) (uvY : ℝ)
    (huv0 : 0 ≤ uvY) (huv1 : uvY ≤ 1) :
    |(sphereInfluenceXZ ls le g uvY).1| ≤ 1
    ∧ |(sphereInfluenceXZ ls le g uvY).2| ≤ 1 := by
  have haway := awayDirection_abs_le ls le g
  have hamt : |bendAmount ls le g uvY| ≤ 1 := by
    rw [bendAmount, abs_mul, abs_of_nonneg (bendStrength_nonneg ls le g),
      abs_of_nonneg huv0]
    nlinarith [bendStrength_nonneg ls le g, bendStrength_le_one ls le g]
  have hamt0 := abs_nonneg (bendAmount ls le g uvY)
  rw [sphereInfluenceXZ]
  constructor
  · simp only
    rw [abs_mul]
    nlinarith [abs_nonneg (awayDirection ls le g).1, haway.1]
  · simp only
    rw [abs_mul]
    nlinarith [abs_nonneg (awayDirection ls le g).2, haway.2]

/-- C5: for every instance, vertex height, trail segment, time and
valid wind/rest-bend inputs, the total horizontal displacement
(rest bend + trail bend + wind bend) has length bounded by an explicit
constant depending only on the grassHeight and windSpeed uniforms —
independent of distanceToLine and of time; and in the branch-free
variant of src/unnamed/part_000 the trail-bend strength still lies in
[0,1] for all inputs, vanishing whenever distanceToLine is at least the
1.45 influence radius, because smoothstep clamps the negative
pre-strength to 0. -/
theorem c5_total_bend_bounded (idx fieldSize grassHeight time windSpeed uvY : ℝ)
    (ls le : ℝ × ℝ) (huv0 : 0 ≤ uvY) (huv1 : uvY ≤ 1)
    (hgh : 0 ≤ grassHeight) (hws : 0 ≤ windSpeed) :
    len2 (totalHorizontalBend idx fieldSize grassHeight time windSpeed uvY ls le)
      ≤ (1 / 2) * (grassHeight + 8 / 10) + 2 + (689 / 500) * windSpeed
    ∧ (∀ g : ℝ × ℝ, 0 ≤ p000_bendStrength ls le g ∧ p000_bendStrength ls le g ≤ 1)
    ∧ (∀ g : ℝ × ℝ, 145 / 100 ≤ distanceToLine ls le g →
        p000_bendStrength ls le g = 0) := by
  refine ⟨?_, ?_, ?_⟩
  · have hi := initialBendXZ_abs_le idx uvY hgh huv0 huv1
    have hs := sphereInfluenceXZ_abs_le ls le (fieldPos idx fieldSize) uvY huv0 huv1
    have hw := windBendXZ_abs_le idx (fieldPos idx fieldSize) time windSpeed uvY hws huv0 huv1
    have hfst : (totalHorizontalBend idx fieldSize grassHeight time windSpeed uvY ls le).1
        = (initialBendXZ grassHeight idx uvY).1
          + (sphereInfluenceXZ ls le (fieldPos idx fieldSize) uvY).1
          + (windBendXZ idx (fieldPos idx fieldSize) time windSpeed uvY).1 := by
      rw [totalHorizontalBend, Prod.fst_add, Prod.fst_add]
    have hsnd : (totalHorizontalBend idx fieldSize grassHeight time windSpeed uvY ls le).2
        = (initialBendXZ grassHeight idx uvY).2
          + (sphereInfluenceXZ ls le (fieldPos idx fieldSize) uvY).2
          + (windBendXZ idx (fieldPos idx fieldSize) time windSpeed uvY).2 := by
      rw [totalHorizontalBend, Prod.snd_add, Prod.snd_add]
    have habs1 : |(totalHorizontalBend idx fieldSize grassHeight time windSpeed uvY ls le).1|
        ≤ (1 / 4) * (grassHeight + 8 / 10) + 1 + (53 / 50) * windSpeed := by
      rw [hfst]
      calc |_ + _ + _| ≤ |(initialBendXZ grassHeight idx uvY).1
            + (sphereInfluenceXZ ls le (fieldPos idx fieldSize) uvY).1|
            + |(windBendXZ idx (fieldPos idx fieldSize) time windSpeed uvY).1| := abs_add _ _
        _ ≤ |(initialBendXZ grassHeight idx uvY).1|
            + |(sphereInfluenceXZ ls le (fieldPos idx fieldSize) uvY).1|
            + |(windBendXZ idx (fieldPos idx fieldSize) time windSpeed uvY).1| := by
              linarith [abs_add (initialBendXZ grassHeight idx uvY).1
                (sphereInfluenceXZ ls le (fieldPos idx fieldSize) uvY).1]
        _ ≤ _ := by linarith [hi.1, hs.1, hw.1]
    have habs2 : |(totalHorizontalBend idx fieldSize grassHeight time windSpeed uvY ls le).2|
        ≤ (1 / 4) * (grassHeight + 8 / 10) + 1 + (159 / 500) * windSpeed := by
      rw [hsnd]
      calc |_ + _ + _| ≤ |(initialBendXZ grassHeight idx uvY).2
            + (sphereInfluenceXZ ls le (fieldPos idx fieldSize) uvY).2|
            + |(windBendXZ idx (fieldPos idx fieldSize) time windSpeed uvY).2| := abs_add _ _
        _ ≤ |(initialBendXZ grassHeight idx uvY).2|
            + |(sphereInfluenceXZ ls le (fieldPos idx fieldSize) uvY).2|
            + |(windBendXZ idx (fieldPos idx fieldSize) time windSpeed uvY).2| := by
              linarith [abs_add (initialBendXZ grassHeight idx uvY).2
                (sphereInfluenceXZ ls le (fieldPos idx fieldSize) uvY).2]
        _ ≤ _ := by linarith [hi.2, hs.2, hw.2]
    calc len2 (totalHorizontalBend idx fieldSize grassHeight time windSpeed uvY ls le)
        ≤ |(totalHorizontalBend idx fieldSize grassHeight time windSpeed uvY ls le).1|
          + |(totalHorizontalBend idx fieldSize grassHeight time windSpeed uvY ls le).2| :=
          len2_le_abs_add _
      _ ≤ (1 / 2) * (grassHeight + 8 / 10) + 2 + (689 / 500) * windSpeed := by
          linarith
  · intro g
    rw [p000_bendStrength]
    have h1 := smoothstepG01_mem (K := ℝ) (1 - distanceToLine ls le g / (145 / 100))
    have h2 := lineFalloff_nonneg ls le g
    have h3 := lineFalloff_le_one ls le g
    constructor
    · exact mul_nonneg h1.1 h2
    · nlinarith
  · intro g hd
    have harg : 1 - distanceToLine ls le g / (145 / 100) ≤ 0 := by
      have : (1 : ℝ) ≤ distanceToLine ls le g / (145 / 100) :=
        (le_div_iff₀ (by norm_num)).2 (by linarith)
      linarith
    rw [p000_bendStrength, smoothstepG01_of_nonpos harg, zero_mul]

/-- Witness for C5 at concrete parameters. -/
theorem c5_total_bend_bounded_witness :
    (0 : ℝ) ≤ 1 ∧ (1 : ℝ) ≤ 1 ∧ (0 : ℝ) ≤ 13 / 10 ∧ (0 : ℝ) ≤ 13 / 10 ∧
    (len2 (totalHorizontalBend 0 50 (13 / 10) 0 (13 / 10) 1 (0, 0) (1, 0))
      ≤ (1 / 2) * (13 / 10 + 8 / 10) + 2 + (689 / 500) * (13 / 10)
    ∧ (∀ g : ℝ × ℝ, 0 ≤ p000_bendStrength (0, 0) (1, 0) g
        ∧ p000_bendStrength (0, 0) (1, 0) g ≤ 1)
    ∧ (∀ g : ℝ × ℝ, 145 / 100 ≤ distanceToLine (0, 0) (1, 0) g →
        p000_bendStrength (0, 0) (1, 0) g = 0)) :=
  ⟨by norm_num, by norm_num, by norm_num, by norm_num,
    c5_total_bend_bounded 0 50 (13 / 10) 0 (13 / 10) 1 (0, 0) (1, 0)
      (by norm_num) (by norm_num) (by norm_num) (by norm_num)⟩

end Grass
